/-
Verification of the athlete-avatar-generator image pipeline (src/app.py).

The development shallowly embeds the core of `app.py`:
  * `crop_to_aspect_ratio` (app.py:31-58) — the aspect-ratio crop planner.
    Python computes the aspect ratios and box coordinates in IEEE doubles;
    the embedding uses exact rationals (ℚ), which agrees with the float
    computation at every input appearing in the theorems below.  Python's
    `int()` truncates toward zero; every truncated value here is
    nonnegative, so it is modelled as `Int.floor`.
  * Pillow's `Image.crop`, which rounds a float box with Python's `round`
    (round-half-to-even) on each coordinate — modelled by `pilRound`.
  * `create_guideline_image` / `create_hero_guideline_image`
    (app.py:61-84) — overlays modelled as lists of draw commands with a
    pixel semantics: a `draw.line` of stroke width `lw` on an RGBA image
    replaces the pixels within `lw / 2` of the segment (both endpoints
    inclusive, as Pillow draws them) with the fill colour; later commands
    overwrite earlier ones.
  * `process_image` (app.py:86-128) and the batch loop of `main`
    (app.py:192-247).  When `Image.open` fails, the `except` handler at
    app.py:127 formats an f-string reading the local variables
    `width`/`height`, which are only assigned at app.py:97-98 — after
    `Image.open` — so the handler itself raises `UnboundLocalError`,
    which escapes `process_image` and is only stopped by the outer
    `try`/`except` of `main` (app.py:196/248), aborting the whole batch.
    This is modelled by `PyResult.raised` and the abort propagation in
    `runBatch`.
-/
import Mathlib

/-! ## The crop planner (app.py:31-58) -/

/-- The box `(left, top, right, bottom)` that `crop_to_aspect_ratio`
passes to `image.crop`.  The Python code builds it from floats, so the
fields are rationals here. -/
structure CropBoxQ where
  left : ℚ
  top : ℚ
  right : ℚ
  bottom : ℚ
deriving DecidableEq

/-- Direct translation of `crop_to_aspect_ratio` (app.py:31-58).
`int(x)` on the nonnegative values appearing here is `⌊x⌋`. -/
def crop_to_aspect_ratio (imgW imgH targetW targetH : ℕ) : CropBoxQ :=
  let target_aspect : ℚ := (targetW : ℚ) / (targetH : ℚ)
  let image_aspect : ℚ := (imgW : ℚ) / (imgH : ℚ)
  if target_aspect < image_aspect then
    -- image is wider than target: crop the sides
    let new_width : ℤ := ⌊(imgH : ℚ) * target_aspect⌋
    { left := ((imgW : ℚ) - (new_width : ℚ)) / 2
      top := 0
      right := ((imgW : ℚ) - (new_width : ℚ)) / 2 + (new_width : ℚ)
      bottom := (imgH : ℚ) }
  else if image_aspect < target_aspect then
    -- image is taller than target: crop from the bottom
    let new_height : ℤ := ⌊(imgW : ℚ) / target_aspect⌋
    { left := 0
      top := 0
      right := (imgW : ℚ)
      bottom := (new_height : ℚ) }
  else
    { left := 0, top := 0, right := (imgW : ℚ), bottom := (imgH : ℚ) }

/-- Width of the planned crop box. -/
def plannedWidth (w h tw th : ℕ) : ℚ :=
  (crop_to_aspect_ratio w h tw th).right - (crop_to_aspect_ratio w h tw th).left

/-- Height of the planned crop box. -/
def plannedHeight (w h tw th : ℕ) : ℚ :=
  (crop_to_aspect_ratio w h tw th).bottom - (crop_to_aspect_ratio w h tw th).top

/-- Python's `round` (round half to even), applied by Pillow's
`Image.crop` to each coordinate of a float box. -/
def pilRound (q : ℚ) : ℤ :=
  if q - (⌊q⌋ : ℚ) < 1 / 2 then ⌊q⌋
  else if 1 / 2 < q - (⌊q⌋ : ℚ) then ⌊q⌋ + 1
  else if ⌊q⌋ % 2 = 0 then ⌊q⌋ else ⌊q⌋ + 1

/-- The integer pixel region Pillow actually crops. -/
structure CropRegion where
  left : ℤ
  top : ℤ
  right : ℤ
  bottom : ℤ
deriving DecidableEq

/-- Rounding of the planner's float box done inside `image.crop`. -/
def pilCrop (b : CropBoxQ) : CropRegion :=
  { left := pilRound b.left
    top := pilRound b.top
    right := pilRound b.right
    bottom := pilRound b.bottom }

/-- The integer region effectively cropped out of a `w × h` source for a
`tw × th` target: the planner's box as rounded by `image.crop`. -/
def effectiveCrop (w h tw th : ℕ) : CropRegion :=
  pilCrop (crop_to_aspect_ratio w h tw th)


/-! ## The guideline overlays (app.py:61-84)

An overlay is the RGBA canvas `Image.new("RGBA", (width, height), (0,0,0,0))`
together with the sequence of `draw.line` commands executed on it.  A
`draw.line` on an RGBA image replaces the covered pixels with its fill
colour; a stroke of width `lw` covers the pixels within `lw / 2` of the
segment (endpoints inclusive), which for the odd widths 3 and 5 used here
is Pillow's behaviour.  Later commands overwrite earlier ones. -/

/-- An RGBA colour value. -/
structure RGBA where
  r : ℕ
  g : ℕ
  b : ℕ
  a : ℕ
deriving DecidableEq

/-- The fully transparent background `(0, 0, 0, 0)` of `Image.new`. -/
def transparent : RGBA := ⟨0, 0, 0, 0⟩

/-- `line_color = (255, 255, 255, 200)` (app.py:66); the hero shoulder
line at app.py:83 uses the same literal colour. -/
def line_color : RGBA := ⟨255, 255, 255, 200⟩

/-- `line_width = 3` (app.py:67). -/
def line_width : ℕ := 3

/-- `dash_length = 15` (app.py:68). -/
def dash_length : ℕ := 15

/-- Stroke width of the hero shoulder line, the literal `width=5` at
app.py:83. -/
def hero_line_width : ℕ := 5

/-- One `draw.line` command: a horizontal or vertical segment with a
stroke width and a fill colour. -/
inductive DrawOp where
  | hline (x0 x1 y : ℤ) (lw : ℕ) (c : RGBA)
  | vline (x y0 y1 : ℤ) (lw : ℕ) (c : RGBA)
deriving DecidableEq

/-- Whether a draw command paints the pixel `(px, py)`. -/
def DrawOp.covers : DrawOp → ℤ → ℤ → Bool
  | .hline x0 x1 y lw _, px, py =>
      decide (x0 ≤ px ∧ px ≤ x1 ∧ (py - y).natAbs ≤ lw / 2)
  | .vline x y0 y1 lw _, px, py =>
      decide (y0 ≤ py ∧ py ≤ y1 ∧ (px - x).natAbs ≤ lw / 2)

/-- The fill colour of a draw command. -/
def DrawOp.color : DrawOp → RGBA
  | .hline _ _ _ _ c => c
  | .vline _ _ _ _ c => c

/-- Execute the draw commands in order on a transparent canvas and read
the resulting colour at `(px, py)`: the last command covering the pixel
wins. -/
def renderOps (ops : List DrawOp) (px py : ℤ) : RGBA :=
  ops.foldl (fun acc op => if op.covers px py then op.color else acc) transparent

/-- Python's `range(0, stop, step)` for a positive `step`. -/
def pyRange (stop step : ℕ) : List ℕ :=
  List.range' 0 ((stop + step - 1) / step) step

/-- An overlay raster: canvas dimensions plus the draw commands run on it. -/
structure Overlay where
  width : ℕ
  height : ℕ
  ops : List DrawOp
deriving DecidableEq

/-- The colour of overlay pixel `(x, y)`; pixels outside the canvas do
not exist and read as transparent. -/
def Overlay.pixel (o : Overlay) (x y : ℕ) : RGBA :=
  if x < o.width ∧ y < o.height then renderOps o.ops (x : ℤ) (y : ℤ) else transparent

/-- Translation of `create_guideline_image` (app.py:61-75): dashed
border.  The first loop draws the top and bottom dashes for
`i in range(0, width, dash_length * 2)`, the second the left and right
dashes for `i in range(0, height, dash_length * 2)`. -/
def create_guideline_image (width height : ℕ) : Overlay :=
  { width := width
    height := height
    ops :=
      ((pyRange width (dash_length * 2)).map fun i =>
        [DrawOp.hline (i : ℤ) ((i : ℤ) + (dash_length : ℤ)) 0 line_width line_color,
         DrawOp.hline (i : ℤ) ((i : ℤ) + (dash_length : ℤ)) ((height : ℤ) - 1) line_width line_color]).flatten
      ++
      ((pyRange height (dash_length * 2)).map fun i =>
        [DrawOp.vline 0 (i : ℤ) ((i : ℤ) + (dash_length : ℤ)) line_width line_color,
         DrawOp.vline ((width : ℤ) - 1) (i : ℤ) ((i : ℤ) + (dash_length : ℤ)) line_width line_color]).flatten }

/-- `shoulder_height = int(height * 0.4)` (app.py:82); the value is
nonnegative, so `int` truncation is `⌊2 * height / 5⌋ = 2 * height / 5`
in natural division. -/
def shoulderHeight (height : ℕ) : ℕ := 2 * height / 5

/-- The shoulder-line position the specification asserts:
`round(height * 0.4)`.  (Python's `round` breaks ties to even; Mathlib's
`round` breaks them upward — no tie occurs at the inputs below, where
the two agree.)  This definition follows the spec's words, for
comparison against `shoulderHeight`, which follows the code. -/
def specShoulderY (height : ℕ) : ℤ := round ((height : ℚ) * (2 / 5))

/-- Translation of `create_hero_guideline_image` (app.py:77-84): the
dashed border, then one full-width horizontal line of stroke width 5 at
`shoulder_height`, drawn after (hence over) the border. -/
def create_hero_guideline_image (width height : ℕ) : Overlay :=
  let g := create_guideline_image width height
  { g with
    ops := g.ops ++
      [DrawOp.hline 0 (width : ℤ) ((shoulderHeight height : ℕ) : ℤ) hero_line_width line_color] }

/-- The overlay `process_image` composites for a given spec type
(app.py:112-115): the hero guideline for `"hero"`, the plain guideline
otherwise. -/
def overlay_for (t : String) (width height : ℕ) : Overlay :=
  if t = "hero" then create_hero_guideline_image width height
  else create_guideline_image width height


/-! ## The artifact renderer and the batch loop (app.py:86-128, 192-247) -/

/-- One entry of `OUTPUT_SPECS[...]["sizes"]` (app.py:12-27). -/
structure SizeSpec where
  width : ℕ
  height : ℕ
  type : String
deriving DecidableEq

/-- `OUTPUT_SPECS["avatar"]["sizes"][0]`. -/
def avatar_256 : SizeSpec := ⟨256, 256, "avatar"⟩

/-- `OUTPUT_SPECS["avatar"]["sizes"][1]`. -/
def avatar_500 : SizeSpec := ⟨500, 345, "avatar"⟩

/-- `OUTPUT_SPECS["hero"]["sizes"][0]`. -/
def hero_1200 : SizeSpec := ⟨1200, 1165, "hero"⟩

/-- `OUTPUT_SPECS["hero"]["sizes"][1]`. -/
def hero_1500 : SizeSpec := ⟨1500, 920, "hero"⟩

/-- An uploaded file: its display name and, if `Image.open` can decode
its bytes, the decoded image's dimensions (`none` models undecodable
bytes). -/
structure UploadedFile where
  name : String
  decoded : Option (ℕ × ℕ)
deriving DecidableEq

/-- The stem part of `os.path.splitext` (app.py:96): everything before
the last dot, the whole name when there is no dot.  (Python's special
case for names consisting only of leading dots is not modelled; no such
name appears below.) -/
def splitextStem (s : String) : String :=
  if s.toList.contains '.' then
    String.mk (((s.toList.reverse.dropWhile fun c => c ≠ '.').drop 1).reverse)
  else s

/-- An in-memory Pillow image, tracked by its dimensions. -/
structure Img where
  width : ℕ
  height : ℕ
deriving DecidableEq

/-- `image.crop(box)`: Pillow rounds the float box with Python's `round`
and the result has the region's dimensions. -/
def Img.cropTo (_ : Img) (b : CropBoxQ) : Img :=
  let r := pilCrop b
  ⟨(r.right - r.left).toNat, (r.bottom - r.top).toNat⟩

/-- `image.resize((w, h), Image.LANCZOS)`: the result has exactly the
requested dimensions. -/
def Img.resize (_ : Img) (w h : ℕ) : Img := ⟨w, h⟩

/-- `bg.paste(img, (0, 0), img)` draws into `bg` and leaves its
dimensions unchanged. -/
def Img.paste (bg : Img) (_ : Img) : Img := bg

/-- One generated output: the archive member name and the decoded pixel
dimensions of the PNG bytes. -/
structure Artifact where
  name : String
  width : ℕ
  height : ℕ
deriving DecidableEq

/-- Outcome of a call to `process_image`: a normal return, or an
exception escaping the function. -/
inductive PyResult (α : Type) where
  | ok (val : α) : PyResult α
  | raised : PyResult α
deriving DecidableEq

/-- Translation of `process_image` (app.py:86-128) for one uploaded file
and one size spec.  If `Image.open` fails (`decoded = none`), the
`except` handler's f-string reads the never-assigned locals
`width`/`height` and raises `UnboundLocalError`, which escapes the
function: modelled as `.raised`.  Otherwise the crop/resize/paste chain
runs and the artifact is returned under its deterministic name. -/
def process_image (f : UploadedFile) (spec : SizeSpec) : PyResult Artifact :=
  match f.decoded with
  | none => .raised
  | some (w0, h0) =>
      let image : Img := ⟨w0, h0⟩
      let cropped := image.cropTo (crop_to_aspect_ratio w0 h0 spec.width spec.height)
      let processed := cropped.resize spec.width spec.height
      let bg : Img := ⟨spec.width, spec.height⟩
      let composite := bg.paste processed
      .ok { name := splitextStem f.name ++ "-" ++ spec.type ++ "_" ++
                    toString spec.width ++ "x" ++ toString spec.height ++ ".png"
            width := composite.width
            height := composite.height }

/-- The nested generation loops of `main` (app.py:216-221), which run
inside `main`'s single `try` block (app.py:196): each successful
`process_image` result is appended to `all_generated_images`; an
exception escaping `process_image` jumps to the `except` at app.py:248
and aborts the whole batch (modelled as `none`). -/
def runBatch (files : List UploadedFile) (specs : List SizeSpec) :
    Option (List Artifact) :=
  files.foldl
    (fun acc f =>
      specs.foldl
        (fun acc2 s =>
          match acc2 with
          | none => none
          | some arts =>
              match process_image f s with
              | .ok a => some (arts ++ [a])
              | .raised => none)
        acc)
    (some [])

/-- The member names written into `athlete_images.zip` (app.py:224-227),
in order; empty when the batch aborted or generated nothing. -/
def archiveMemberNames (files : List UploadedFile) (specs : List SizeSpec) :
    List String :=
  match runBatch files specs with
  | none => []
  | some arts => arts.map Artifact.name


/-! ### Helper lemmas about `pilRound` and the planner's branches -/

theorem pilRound_intCast (n : ℤ) : pilRound (n : ℚ) = n := by
  unfold pilRound
  rw [Int.floor_intCast]
  norm_num

theorem pilRound_natCast (n : ℕ) : pilRound (n : ℚ) = (n : ℤ) := by
  rw [show ((n : ℚ)) = (((n : ℤ) : ℚ)) by push_cast; ring]
  exact pilRound_intCast n

theorem pilRound_int_add_half (n : ℤ) :
    pilRound ((n : ℚ) + 1 / 2) = if n % 2 = 0 then n else n + 1 := by
  have hhalf : ⌊(1 / 2 : ℚ)⌋ = 0 := by
    rw [Int.floor_eq_zero_iff]
    constructor <;> norm_num
  have hfl : ⌊(n : ℚ) + 1 / 2⌋ = n := by
    rw [Int.floor_int_add, hhalf, add_zero]
  have harg : (n : ℚ) + 1 / 2 - (n : ℚ) = 1 / 2 := by ring
  unfold pilRound
  rw [hfl, harg]
  norm_num

theorem pilRound_int_add_half_bounds (n : ℤ) :
    n ≤ pilRound ((n : ℚ) + 1 / 2) ∧ pilRound ((n : ℚ) + 1 / 2) ≤ n + 1 := by
  rw [pilRound_int_add_half]
  split <;> omega

theorem floor_natCast_div_natCast (a b : ℕ) :
    ⌊(a : ℚ) / (b : ℚ)⌋ = ((a / b : ℕ) : ℤ) := by
  rw [show ((a : ℚ)) = (((a : ℤ) : ℚ)) by push_cast; ring]
  rw [Rat.floor_intCast_div_natCast]
  exact (Int.ofNat_tdiv a b).symm

/-- Evaluation of the planner on the "source wider than target" branch. -/
theorem crop_wider (w h tw th : ℕ) (hh : 0 < h) (hth : 0 < th)
    (hcmp : tw * h < w * th) :
    crop_to_aspect_ratio w h tw th =
      { left := ((w : ℚ) - ((h * tw / th : ℕ) : ℚ)) / 2
        top := 0
        right := ((w : ℚ) - ((h * tw / th : ℕ) : ℚ)) / 2 + ((h * tw / th : ℕ) : ℚ)
        bottom := (h : ℚ) } := by
  have hlt : (tw : ℚ) / (th : ℚ) < (w : ℚ) / (h : ℚ) := by
    rw [div_lt_div_iff₀ (by exact_mod_cast hth) (by exact_mod_cast hh)]
    exact_mod_cast hcmp
  have hfl : ⌊(h : ℚ) * ((tw : ℚ) / (th : ℚ))⌋ = ((h * tw / th : ℕ) : ℤ) := by
    rw [mul_div_assoc']
    rw [show ((h : ℚ) * (tw : ℚ)) = (((h * tw : ℕ) : ℚ)) by push_cast; ring]
    exact floor_natCast_div_natCast (h * tw) th
  simp only [crop_to_aspect_ratio]
  rw [if_pos hlt, hfl]
  norm_cast

/-- Evaluation of the planner on the "source taller than target" branch. -/
theorem crop_taller (w h tw th : ℕ) (hh : 0 < h) (hth : 0 < th)
    (hcmp : w * th < tw * h) :
    crop_to_aspect_ratio w h tw th =
      { left := 0
        top := 0
        right := (w : ℚ)
        bottom := ((w * th / tw : ℕ) : ℚ) } := by
  have hlt : (w : ℚ) / (h : ℚ) < (tw : ℚ) / (th : ℚ) := by
    rw [div_lt_div_iff₀ (by exact_mod_cast hh) (by exact_mod_cast hth)]
    exact_mod_cast hcmp
  have hfl : ⌊(w : ℚ) / ((tw : ℚ) / (th : ℚ))⌋ = ((w * th / tw : ℕ) : ℤ) := by
    rw [div_div_eq_mul_div]
    rw [show ((w : ℚ) * (th : ℚ)) = (((w * th : ℕ) : ℚ)) by push_cast; ring]
    exact floor_natCast_div_natCast (w * th) tw
  simp only [crop_to_aspect_ratio]
  rw [if_neg (not_lt.mpr (le_of_lt hlt)), if_pos hlt, hfl]
  norm_cast

/-- Evaluation of the planner when the aspect ratios coincide. -/
theorem crop_equal (w h tw th : ℕ) (hh : 0 < h) (hth : 0 < th)
    (hcmp : w * th = tw * h) :
    crop_to_aspect_ratio w h tw th =
      { left := 0, top := 0, right := (w : ℚ), bottom := (h : ℚ) } := by
  have heq : (tw : ℚ) / (th : ℚ) = (w : ℚ) / (h : ℚ) := by
    rw [div_eq_div_iff (by exact_mod_cast hth.ne' : (th : ℚ) ≠ 0) (by exact_mod_cast hh.ne' : (h : ℚ) ≠ 0)]
    exact_mod_cast hcmp.symm
  simp only [crop_to_aspect_ratio]
  rw [if_neg (by rw [heq]; exact lt_irrefl _), if_neg (by rw [heq]; exact lt_irrefl _)]



theorem pilRound_zero : pilRound 0 = 0 := by
  rw [show (0 : ℚ) = ((0 : ℤ) : ℚ) by norm_num]
  exact pilRound_intCast 0

theorem pilRound_eq_intCast (n : ℤ) {q : ℚ} (h : q = (n : ℚ)) : pilRound q = n := by
  rw [h]
  exact pilRound_intCast n

theorem pilRound_eq_add_half (n : ℤ) {q : ℚ} (h : q = (n : ℚ) + 1 / 2) :
    pilRound q = if n % 2 = 0 then n else n + 1 := by
  rw [h]
  exact pilRound_int_add_half n

/-- Joint bounds for the rounded `left` and `right` of a centred crop:
for `left = d / 2` and `right = d / 2 + cw` (with `d, cw : ℕ`), the
rounded coordinates satisfy `0 ≤ left' ≤ right' ≤ d + cw`. -/
theorem pilRound_pair_bounds (d cw : ℕ) :
    0 ≤ pilRound ((d : ℚ) / 2) ∧
    pilRound ((d : ℚ) / 2) ≤ pilRound ((d : ℚ) / 2 + (cw : ℚ)) ∧
    pilRound ((d : ℚ) / 2 + (cw : ℚ)) ≤ (d : ℤ) + (cw : ℤ) := by
  rcases Nat.even_or_odd d with ⟨e, he⟩ | ⟨e, he⟩
  · have hL : pilRound ((d : ℚ) / 2) = (e : ℤ) :=
      pilRound_eq_intCast (e : ℤ) (by subst he; push_cast; ring)
    have hR : pilRound ((d : ℚ) / 2 + (cw : ℚ)) = (e : ℤ) + (cw : ℤ) :=
      pilRound_eq_intCast ((e : ℤ) + (cw : ℤ)) (by subst he; push_cast; ring)
    rw [hL, hR]
    subst he
    push_cast
    omega
  · have hL : pilRound ((d : ℚ) / 2) =
        if (e : ℤ) % 2 = 0 then (e : ℤ) else (e : ℤ) + 1 :=
      pilRound_eq_add_half (e : ℤ) (by subst he; push_cast; ring)
    have hR : pilRound ((d : ℚ) / 2 + (cw : ℚ)) =
        if ((e : ℤ) + (cw : ℤ)) % 2 = 0 then (e : ℤ) + (cw : ℤ)
        else (e : ℤ) + (cw : ℤ) + 1 :=
      pilRound_eq_add_half ((e : ℤ) + (cw : ℤ)) (by subst he; push_cast; ring)
    rw [hL, hR]
    subst he
    push_cast
    split_ifs <;> omega

/-- Appending one draw command: the new command wins wherever it covers
the pixel, elsewhere the old rendering shows through. -/
theorem renderOps_append_single (ops : List DrawOp) (op : DrawOp) (px py : ℤ) :
    renderOps (ops ++ [op]) px py =
      if op.covers px py then op.color else renderOps ops px py := by
  simp [renderOps, List.foldl_append]

/-! ## Claims -/

/-- C1, counterexample: the spec says the crop width is
`round(source.height * target_aspect)`, but the code computes
`int(...)`, which truncates.  For a 20×17 source and the hero 1200×1165
spec the code's crop is 17 pixels wide while
`round(17 * 1200/1165) = round(17.51...) = 18`. -/
theorem c1_round_counterexample :
    plannedWidth 20 17 1200 1165 = 17 ∧
    round ((17 : ℚ) * ((1200 : ℚ) / (1165 : ℚ))) = 18 := by
  constructor
  · unfold plannedWidth
    rw [crop_wider 20 17 1200 1165 (by norm_num) (by norm_num) (by norm_num)]
    norm_num
  · norm_num [round_eq]

/-- C1 (amended): when `source_aspect > target_aspect` (equivalently
`tw * h < w * th`), the planner keeps the full source height and uses
`crop_width = int(source.height * target_aspect)` — truncation, not
rounding — with `left = (source.width - crop_width) / 2` and `top = 0`;
the 4000×3000 / avatar 256×256 example still yields
`(left=500, top=0, right=3500, bottom=3000)`. -/
theorem c1_crop_wider_amended (w h tw th : ℕ) (hh : 0 < h) (hth : 0 < th)
    (hcmp : tw * h < w * th) :
    plannedWidth w h tw th = ((h * tw / th : ℕ) : ℚ) ∧
    (crop_to_aspect_ratio w h tw th).left = ((w : ℚ) - ((h * tw / th : ℕ) : ℚ)) / 2 ∧
    (crop_to_aspect_ratio w h tw th).top = 0 ∧
    (crop_to_aspect_ratio w h tw th).bottom = (h : ℚ) := by
  unfold plannedWidth
  rw [crop_wider w h tw th hh hth hcmp]
  dsimp only
  exact ⟨by ring, rfl, rfl, rfl⟩

/-- Witness for C1 at the spec's own example: the 4000×3000 source with
the avatar 256×256 spec crops to `(500, 0, 3500, 3000)`. -/
theorem c1_crop_wider_amended_witness :
    plannedWidth 4000 3000 256 256 = 3000 ∧
    crop_to_aspect_ratio 4000 3000 256 256 = ⟨500, 0, 3500, 3000⟩ := by
  obtain ⟨h1, h2, h3, h4⟩ :=
    c1_crop_wider_amended 4000 3000 256 256 (by norm_num) (by norm_num) (by norm_num)
  norm_num at h1 h2
  refine ⟨h1, ?_⟩
  have hr : (crop_to_aspect_ratio 4000 3000 256 256).right = 3500 := by
    have := h1
    unfold plannedWidth at this
    rw [h2] at this
    linarith
  cases hbox : crop_to_aspect_ratio 4000 3000 256 256
  rw [hbox] at h2 h3 h4 hr
  simp only at h2 h3 h4 hr
  simp [h2, h3, h4, hr]

/-- C2, counterexample: the spec's own example is wrong about the code.
For the 800×1200 source and the hero 1500×920 spec the code computes
`int(800 / (1500/920)) = int(490.66...) = 490`, so the crop is
`(0, 0, 800, 490)`, not the claimed `(0, 0, 800, 491)` (which would be
the result of rounding). -/
theorem c2_round_counterexample :
    crop_to_aspect_ratio 800 1200 1500 920 = ⟨0, 0, 800, 490⟩ ∧
    crop_to_aspect_ratio 800 1200 1500 920 ≠ ⟨0, 0, 800, 491⟩ := by
  have h : crop_to_aspect_ratio 800 1200 1500 920 = ⟨0, 0, 800, 490⟩ := by
    rw [crop_taller 800 1200 1500 920 (by norm_num) (by norm_num) (by norm_num)]
    norm_num
  refine ⟨h, ?_⟩
  rw [h]
  intro hcontra
  have := congrArg CropBoxQ.bottom hcontra
  norm_num at this

/-- C2 (amended): when `source_aspect < target_aspect` (equivalently
`w * th < tw * h`), the planner keeps the full source width and uses
`crop_height = int(source.width / target_aspect)` — truncation, not
rounding — with `left = 0` and `top = 0`; the 800×1200 / hero 1500×920
example therefore yields `(0, 0, 800, 490)`. -/
theorem c2_crop_taller_amended (w h tw th : ℕ) (hh : 0 < h) (hth : 0 < th)
    (hcmp : w * th < tw * h) :
    crop_to_aspect_ratio w h tw th =
      { left := 0, top := 0, right := (w : ℚ), bottom := ((w * th / tw : ℕ) : ℚ) } :=
  crop_taller w h tw th hh hth hcmp

/-- Witness for C2 at the spec's example input. -/
theorem c2_crop_taller_amended_witness :
    crop_to_aspect_ratio 800 1200 1500 920 = ⟨0, 0, 800, 490⟩ := by
  rw [c2_crop_taller_amended 800 1200 1500 920 (by norm_num) (by norm_num) (by norm_num)]
  norm_num

/-- C3, counterexample: the code defines no `DegenerateCropError` and
raises nothing when a crop dimension falls below 1 pixel — for a 1×100
source and the hero 1500×920 spec it simply returns the zero-extent
crop box `(0, 0, 1, 0)` (height 0). -/
theorem c3_degenerate_counterexample :
    plannedHeight 1 100 1500 920 = 0 ∧ plannedHeight 1 100 1500 920 < 1 ∧
    crop_to_aspect_ratio 1 100 1500 920 = ⟨0, 0, 1, 0⟩ := by
  have h : crop_to_aspect_ratio 1 100 1500 920 = ⟨0, 0, 1, 0⟩ := by
    rw [crop_taller 1 100 1500 920 (by norm_num) (by norm_num) (by norm_num)]
    norm_num
  refine ⟨?_, ?_, h⟩ <;> unfold plannedHeight <;> rw [h] <;> norm_num

/-- C3 (amended): the crop planner signals no error at all.  Whenever
the truncated crop height is zero — `source.width * target.height <
target.width`, e.g. 1-pixel-wide sources against a wide target — it
returns the zero-extent crop `(0, 0, source.width, 0)` instead of
raising; nothing in the code corresponds to `DegenerateCropError`. -/
theorem c3_degenerate_amended (w h tw th : ℕ) (hh : 0 < h) (hth : 0 < th)
    (hdeg : w * th < tw) :
    crop_to_aspect_ratio w h tw th = ⟨0, 0, (w : ℚ), 0⟩ := by
  have hcmp : w * th < tw * h := by nlinarith
  rw [crop_taller w h tw th hh hth hcmp]
  norm_num [Nat.div_eq_of_lt hdeg]

/-- Witness for C3 at the 1×100 source with the hero 1500×920 spec. -/
theorem c3_degenerate_amended_witness :
    crop_to_aspect_ratio 1 100 1500 920 = ⟨0, 0, 1, 0⟩ := by
  have h := c3_degenerate_amended 1 100 1500 920 (by norm_num) (by norm_num) (by norm_num)
  rw [h]
  norm_num

/-- C4 (code bug): a source whose bytes are not decodable does NOT
become a per-item failure.  `Image.open` raises before the locals
`width`/`height` are assigned, the `except` handler's f-string
(app.py:127) then raises `UnboundLocalError`, which escapes
`process_image` into `main`'s outer `try` and aborts the whole batch:
with an undecodable first upload and a perfectly valid second upload,
the batch produces nothing, even though the sibling renders fine on its
own. -/
theorem c4_decode_failure_aborts_batch :
    runBatch [⟨"broken.jpg", none⟩, ⟨"good.jpg", some (4000, 3000)⟩] [avatar_256] = none ∧
    process_image ⟨"good.jpg", some (4000, 3000)⟩ avatar_256 =
      .ok ⟨"good-avatar_256x256.png", 256, 256⟩ :=
  ⟨by decide, by decide⟩

/-- C5, counterexample: the effectively cropped region does not always
satisfy `top < bottom`.  For a 1×100 source and the hero 1500×920 spec
the region is `(0, 0, 1, 0)`: `top = bottom = 0`, a zero-extent crop,
so the claimed strict bounds (and with them a well-defined crop aspect
ratio) fail. -/
theorem c5_bounds_counterexample :
    effectiveCrop 1 100 1500 920 = ⟨0, 0, 1, 0⟩ ∧
    ¬ (effectiveCrop 1 100 1500 920).top < (effectiveCrop 1 100 1500 920).bottom := by
  have hbox : crop_to_aspect_ratio 1 100 1500 920 = ⟨0, 0, 1, 0⟩ := by
    rw [crop_taller 1 100 1500 920 (by norm_num) (by norm_num) (by norm_num)]
    norm_num
  have h : effectiveCrop 1 100 1500 920 = ⟨0, 0, 1, 0⟩ := by
    unfold effectiveCrop
    rw [hbox]
    unfold pilCrop
    dsimp only
    rw [pilRound_zero, pilRound_eq_intCast 1 (by norm_num)]
  rw [h]
  exact ⟨rfl, by decide⟩

/-- C5 (amended): for positive source and target dimensions the
effective crop region always has integer bounds inside the source,
`0 ≤ left ≤ right ≤ w` and `0 ≤ top ≤ bottom ≤ h` — but only
non-strictly: degenerate inputs collapse `left = right` or
`top = bottom` (no error is raised), so the strict claim and the exact
aspect-ratio tolerance hold only for non-degenerate crops. -/
theorem c5_crop_region_bounds_amended (w h tw th : ℕ)
    (_hw : 0 < w) (hh : 0 < h) (htw : 0 < tw) (hth : 0 < th) :
    0 ≤ (effectiveCrop w h tw th).left ∧
    (effectiveCrop w h tw th).left ≤ (effectiveCrop w h tw th).right ∧
    (effectiveCrop w h tw th).right ≤ (w : ℤ) ∧
    0 ≤ (effectiveCrop w h tw th).top ∧
    (effectiveCrop w h tw th).top ≤ (effectiveCrop w h tw th).bottom ∧
    (effectiveCrop w h tw th).bottom ≤ (h : ℤ) := by
  rcases lt_trichotomy (tw * h) (w * th) with hlt | heq | hgt
  · -- source wider than target: centred full-height crop
    have hbox := crop_wider w h tw th hh hth hlt
    have hcw : h * tw / th < w := by
      rw [Nat.div_lt_iff_lt_mul hth]
      calc h * tw = tw * h := Nat.mul_comm h tw
        _ < w * th := hlt
    have hsub : (w : ℚ) - ((h * tw / th : ℕ) : ℚ) = ((w - h * tw / th : ℕ) : ℚ) := by
      rw [Nat.cast_sub (le_of_lt hcw)]
    unfold effectiveCrop
    rw [hbox]
    unfold pilCrop
    dsimp only
    rw [hsub, pilRound_zero, pilRound_natCast]
    obtain ⟨b1, b2, b3⟩ := pilRound_pair_bounds (w - h * tw / th) (h * tw / th)
    have hle : h * tw / th ≤ w := le_of_lt hcw
    have hw' : ((w - h * tw / th : ℕ) : ℤ) + ((h * tw / th : ℕ) : ℤ) = (w : ℤ) := by
      rw [Nat.cast_sub hle]; ring
    refine ⟨b1, b2, ?_, le_refl 0, Int.natCast_nonneg h, le_refl _⟩
    rw [← hw']
    exact b3
  · -- aspect ratios match: full image
    have hbox := crop_equal w h tw th hh hth heq.symm
    unfold effectiveCrop
    rw [hbox]
    unfold pilCrop
    dsimp only
    rw [pilRound_zero, pilRound_natCast, pilRound_natCast]
    exact ⟨le_refl 0, Int.natCast_nonneg w, le_refl _, le_refl 0, Int.natCast_nonneg h, le_refl _⟩
  · -- source taller than target: full-width top-anchored crop
    have hbox := crop_taller w h tw th hh hth hgt
    have hnh : w * th / tw < h := by
      rw [Nat.div_lt_iff_lt_mul htw]
      calc w * th < tw * h := hgt
        _ = h * tw := Nat.mul_comm tw h
    unfold effectiveCrop
    rw [hbox]
    unfold pilCrop
    dsimp only
    rw [pilRound_zero, pilRound_natCast, pilRound_natCast]
    refine ⟨le_refl 0, Int.natCast_nonneg w, le_refl _, le_refl 0, Int.natCast_nonneg _, ?_⟩
    exact_mod_cast le_of_lt hnh

/-- Witness for C5 at the 4000×3000 source with the avatar 256×256
spec. -/
theorem c5_crop_region_bounds_amended_witness :
    0 ≤ (effectiveCrop 4000 3000 256 256).left ∧
    (effectiveCrop 4000 3000 256 256).left ≤ (effectiveCrop 4000 3000 256 256).right ∧
    (effectiveCrop 4000 3000 256 256).right ≤ (4000 : ℤ) ∧
    0 ≤ (effectiveCrop 4000 3000 256 256).top ∧
    (effectiveCrop 4000 3000 256 256).top ≤ (effectiveCrop 4000 3000 256 256).bottom ∧
    (effectiveCrop 4000 3000 256 256).bottom ≤ (3000 : ℤ) :=
  c5_crop_region_bounds_amended 4000 3000 256 256
    (by norm_num) (by norm_num) (by norm_num) (by norm_num)

/-- C6, counterexample: output dimensions always equal the spec (see
the amended theorem), but the claim's second half — "no output is ever
non-uniformly scaled relative to the cropped source" — fails.  A 16×9
source under the avatar 500×345 spec renders successfully, yet the
effectively cropped region is 12×9, and `12 * 345 ≠ 9 * 500`: the
horizontal and vertical resize factors (500/12 vs 345/9) differ, i.e.
the resize is non-uniform relative to the cropped source. -/
theorem c6_uniform_scaling_counterexample :
    process_image ⟨"side.png", some (16, 9)⟩ avatar_500 =
      .ok ⟨"side-avatar_500x345.png", 500, 345⟩ ∧
    Img.cropTo ⟨16, 9⟩ (crop_to_aspect_ratio 16 9 500 345) = ⟨12, 9⟩ ∧
    (12 : ℕ) * 345 ≠ 9 * 500 := by
  refine ⟨by decide, ?_, by decide⟩
  have hbox : crop_to_aspect_ratio 16 9 500 345 = ⟨3 / 2, 0, 29 / 2, 9⟩ := by
    rw [crop_wider 16 9 500 345 (by norm_num) (by norm_num) (by norm_num)]
    norm_num
  have hL : pilRound (3 / 2 : ℚ) = 2 := by
    rw [pilRound_eq_add_half 1 (show (3 / 2 : ℚ) = ((1 : ℤ) : ℚ) + 1 / 2 by norm_num)]
    decide
  have hR : pilRound (29 / 2 : ℚ) = 14 := by
    rw [pilRound_eq_add_half 14 (show (29 / 2 : ℚ) = ((14 : ℤ) : ℚ) + 1 / 2 by norm_num)]
    decide
  have hB : pilRound (9 : ℚ) = 9 := pilRound_eq_intCast 9 (by norm_num)
  unfold Img.cropTo
  rw [hbox]
  unfold pilCrop
  dsimp only
  rw [pilRound_zero, hL, hR, hB]
  decide

/-- C6 (amended): every successfully rendered artifact's dimensions
exactly equal its spec's width and height (the resize targets the spec
dimensions and the transparent canvas is created at exactly those
dimensions); the scaling, however, is uniform only up to the integer
rounding of the crop, not exactly. -/
theorem c6_artifact_dims_amended (f : UploadedFile) (s : SizeSpec) (a : Artifact)
    (h : process_image f s = .ok a) :
    a.width = s.width ∧ a.height = s.height := by
  rcases hf : f.decoded with _ | ⟨w0, h0⟩
  · exfalso
    rw [show process_image f s = PyResult.raised by unfold process_image; rw [hf]] at h
    exact PyResult.noConfusion h
  · have hps : process_image f s =
        .ok { name := splitextStem f.name ++ "-" ++ s.type ++ "_" ++
                      toString s.width ++ "x" ++ toString s.height ++ ".png"
              width := s.width
              height := s.height } := by
      unfold process_image
      rw [hf]
      rfl
    rw [hps] at h
    injection h with h'
    rw [← h']
    exact ⟨rfl, rfl⟩

/-- Witness for C6: a decodable 4000×3000 upload under the avatar
256×256 spec yields an artifact of exactly 256×256. -/
theorem c6_artifact_dims_amended_witness :
    (Artifact.mk "good-avatar_256x256.png" 256 256).width = avatar_256.width ∧
    (Artifact.mk "good-avatar_256x256.png" 256 256).height = avatar_256.height :=
  c6_artifact_dims_amended ⟨"good.jpg", some (4000, 3000)⟩ avatar_256
    (Artifact.mk "good-avatar_256x256.png" 256 256) (by decide)

/-- C7 (code bug, flagged as a defect by the spec itself): two uploads
sharing the filename stem "photo" produce two archive entries under the
identical member name `photo-avatar_256x256.png`; `zf.writestr` is
called twice with the same name, so the earlier entry is silently
occluded instead of the names being pairwise distinct. -/
theorem c7_duplicate_archive_names :
    archiveMemberNames
        [⟨"photo.jpg", some (4000, 3000)⟩, ⟨"photo.jpg", some (2000, 2000)⟩]
        [avatar_256] =
      ["photo-avatar_256x256.png", "photo-avatar_256x256.png"] ∧
    ¬ (archiveMemberNames
        [⟨"photo.jpg", some (4000, 3000)⟩, ⟨"photo.jpg", some (2000, 2000)⟩]
        [avatar_256]).Nodup :=
  ⟨by decide, by decide⟩

/-- C8, counterexample: the hero reference line is drawn at
`int(height * 0.4)`, not `round(height * 0.4)`.  At height 7 the spec's
`round(2.8) = 3` while the code draws at `int(2.8) = 2`; consequently
pixel `(20, 5)` — inside the canvas, inside a width-5 stroke centred at
row 3, and away from the border dashes — is left fully transparent. -/
theorem c8_round_counterexample :
    specShoulderY 7 = 3 ∧
    shoulderHeight 7 = 2 ∧
    (create_hero_guideline_image 100 7).pixel 20 5 = transparent ∧
    ((5 : ℤ) - specShoulderY 7).natAbs ≤ hero_line_width / 2 ∧
    20 < 100 ∧ 5 < 7 := by
  have h3 : specShoulderY 7 = 3 := by
    unfold specShoulderY
    norm_num [round_eq]
  refine ⟨h3, by decide, by decide, ?_, by decide, by decide⟩
  rw [h3]
  decide

/-- C8 (amended): the hero overlay draws one full-width solid
horizontal line of stroke width 5 — strictly wider than the border's
stroke width 3 — centred at `y = int(height * 0.4)` (truncation, not
rounding), as the last draw command, so every canvas pixel within the
stroke shows the line colour regardless of the border underneath. -/
theorem c8_hero_line_amended (w h x y : ℕ) (hx : x < w) (hy : y < h)
    (hstroke : ((y : ℤ) - (shoulderHeight h : ℤ)).natAbs ≤ hero_line_width / 2) :
    line_width < hero_line_width ∧
    (create_hero_guideline_image w h).pixel x y = line_color := by
  refine ⟨by decide, ?_⟩
  unfold create_hero_guideline_image Overlay.pixel create_guideline_image
  dsimp only
  rw [if_pos ⟨hx, hy⟩, renderOps_append_single]
  have hcov : (DrawOp.hline 0 (w : ℤ) ((shoulderHeight h : ℕ) : ℤ)
      hero_line_width line_color).covers (x : ℤ) (y : ℤ) = true := by
    unfold DrawOp.covers
    simp only [decide_eq_true_eq]
    exact ⟨Int.natCast_nonneg x, by exact_mod_cast le_of_lt hx, hstroke⟩
  rw [hcov]
  rfl

/-- Witness for C8 at a 30×7 hero canvas: `shoulderHeight 7 = 2`, and
the pixel `(20, 2)` on the stroke centre row is the line colour. -/
theorem c8_hero_line_amended_witness :
    line_width < hero_line_width ∧
    (create_hero_guideline_image 30 7).pixel 20 2 = line_color :=
  c8_hero_line_amended 30 7 20 2 (by decide) (by decide) (by decide)

/-- C9 (confirmed): the overlay generator is a pure function of
`(category, width, height)` — two calls with identical arguments yield
identical overlay rasters (same canvas, same draw commands, hence
byte-identical renderings). -/
theorem c9_overlay_deterministic (t₁ t₂ : String) (w₁ w₂ h₁ h₂ : ℕ)
    (ht : t₁ = t₂) (hw : w₁ = w₂) (hh : h₁ = h₂) :
    overlay_for t₁ w₁ h₁ = overlay_for t₂ w₂ h₂ := by
  subst ht
  subst hw
  subst hh
  rfl

/-- Witness for C9 at the hero 1500×920 overlay. -/
theorem c9_overlay_deterministic_witness :
    overlay_for "hero" 1500 920 = overlay_for "hero" 1500 920 :=
  c9_overlay_deterministic "hero" "hero" 1500 1500 920 920 rfl rfl rfl

/-- C10 (confirmed): outside the rows of the width-5 shoulder stroke
centred at `int(height * 0.4)`, the hero overlay agrees pixel-for-pixel
with the plain (avatar) overlay: the hero overlay is exactly the avatar
overlay with only that line painted on top. -/
theorem c10_hero_matches_avatar_off_stroke (w h x y : ℕ)
    (hoff : (y : ℤ) + 2 < (shoulderHeight h : ℤ) ∨ (shoulderHeight h : ℤ) + 2 < (y : ℤ)) :
    (create_hero_guideline_image w h).pixel x y = (create_guideline_image w h).pixel x y := by
  unfold create_hero_guideline_image Overlay.pixel
  dsimp only
  by_cases hin : x < (create_guideline_image w h).width ∧ y < (create_guideline_image w h).height
  · rw [if_pos hin, if_pos hin, renderOps_append_single]
    have hncov : (DrawOp.hline 0 (w : ℤ) ((shoulderHeight h : ℕ) : ℤ)
        hero_line_width line_color).covers (x : ℤ) (y : ℤ) = false := by
      unfold DrawOp.covers
      simp only [decide_eq_false_iff_not]
      rintro ⟨-, -, habs⟩
      have h52 : hero_line_width / 2 = 2 := by decide
      rw [h52] at habs
      omega
    rw [hncov]
    rfl
  · rw [if_neg hin, if_neg hin]

/-- Witness for C10 on a 30×20 hero canvas: the stroke is centred at
row 8, and at `(5, 0)` — above the stroke — hero and avatar overlays
agree. -/
theorem c10_hero_matches_avatar_off_stroke_witness :
    (create_hero_guideline_image 30 20).pixel 5 0 = (create_guideline_image 30 20).pixel 5 0 :=
  c10_hero_matches_avatar_off_stroke 30 20 5 0 (by decide)
